import Mathlib

/-!
Verification development for the ATR scanner Flask application (app.py).

The Python source is shallowly embedded as follows:

* Python floats are modelled by exact rationals (`ℚ`); the claims under
  study are arithmetic identities and comparisons, idealised over exact
  arithmetic.  Python ints are modelled by `ℤ`.
* pandas `NaN` values (produced by `pd.to_numeric(..., errors='coerce')`)
  are modelled by `Option ℚ` (`none` = NaN) inside the indicator
  calculator, together with pandas' NaN-skipping row maximum and the
  NaN-poisoning rolling mean.  Scan-level code is modelled over candles
  whose fields parsed successfully (`CandleQ`).
* JSON values arriving in request bodies are modelled by `JVal`; the
  conversions performed by Python's `float()` and `int()` builtins are
  modelled by `pyFloat` and `pyInt` (numeric strings are parsed as plain
  decimal literals; exponent forms, inf/nan, surrounding whitespace and
  underscores are not modelled — no claim depends on which exotic strings
  convert, only on the existence of convertible and non-convertible
  values).
* The mutable global `scan_data` dict is the state `ScanState`; threads
  executing `perform_scan` are modelled by a small-step transition system
  (`Sys`, `Reachable`) whose atomic steps are the individual Python
  statements of `perform_scan` that touch shared state: setting the
  `scanning` flag, reading the four settings fields at the call to
  `scan_symbols` (argument evaluation, modelled as one step), publishing
  the sorted results, and the `except` path.
-/

/-- JSON values as delivered by `request.json`.  Arrays are represented
by a payload-free constructor: only their (non-)convertibility matters. -/
inductive JVal where
  | num (q : ℚ)
  | str (s : String)
  | bool (b : Bool)
  | null
  | arr
deriving DecidableEq

/-- Digit list to natural number, most significant first. -/
def digitsVal (cs : List Char) : ℕ :=
  cs.foldl (fun a c => 10 * a + (c.toNat - 48)) 0

/-- Python `float(s)` on a string, restricted to plain decimal literals
with optional sign and decimal point. -/
def strToFloat (s : String) : Option ℚ :=
  let (sg, body) :=
    if s.startsWith "-" then ((-1 : ℚ), s.drop 1)
    else if s.startsWith "+" then ((1 : ℚ), s.drop 1)
    else ((1 : ℚ), s)
  match body.splitOn "." with
  | [a] =>
      if 0 < a.length ∧ a.all Char.isDigit then
        some (sg * (digitsVal a.toList : ℚ))
      else none
  | [a, b] =>
      if 0 < a.length + b.length ∧ a.all Char.isDigit ∧ b.all Char.isDigit then
        some (sg * ((digitsVal a.toList : ℚ) +
          (digitsVal b.toList : ℚ) / (10 ^ b.length : ℚ)))
      else none
  | _ => none

/-- Python `int(s)` on a string: optional sign followed by digits. -/
def strToInt (s : String) : Option ℤ :=
  let (sg, body) :=
    if s.startsWith "-" then ((-1 : ℤ), s.drop 1)
    else if s.startsWith "+" then ((1 : ℤ), s.drop 1)
    else ((1 : ℤ), s)
  if 0 < body.length ∧ body.all Char.isDigit then
    some (sg * (digitsVal body.toList : ℤ))
  else none

/-- Truncation toward zero, the behaviour of Python `int()` on a float. -/
def ratTrunc (q : ℚ) : ℤ :=
  if 0 ≤ q then ⌊q⌋ else -⌊-q⌋

/-- Python `float(v)` on a JSON value: numbers and booleans convert,
numeric strings parse, `None` and lists raise `TypeError` (`none`). -/
def pyFloat : JVal → Option ℚ
  | .num q => some q
  | .bool b => some (if b then 1 else 0)
  | .str s => strToFloat s
  | .null => none
  | .arr => none

/-- Python `int(v)` on a JSON value: numbers truncate toward zero,
booleans convert, digit strings parse, `None` and lists raise (`none`). -/
def pyInt : JVal → Option ℤ
  | .num q => some (ratTrunc q)
  | .bool b => some (if b then 1 else 0)
  | .str s => strToInt s
  | .null => none
  | .arr => none

/-- The `scan_settings` sub-dictionary of the global `scan_data`.  The
`interval` entry is stored verbatim from the request body (the handler
performs no conversion on it), hence its type is `JVal`. -/
structure Settings where
  min_atr_percentage : ℚ
  atr_period : ℤ
  atr_multiplier : ℚ
  interval : JVal
deriving DecidableEq

/-- Initial settings of the process (`scan_data['scan_settings']`). -/
def defaultSettings : Settings :=
  { min_atr_percentage := 1/2
    atr_period := 50
    atr_multiplier := 1/2
    interval := JVal.str "1m" }

/-- A parsed `/api/update-settings` request body: each of the four
recognised keys is present or absent; unrecognised keys are ignored by
the handler and therefore not modelled. -/
structure Body where
  min_atr_percentage : Option JVal
  atr_period : Option JVal
  atr_multiplier : Option JVal
  interval : Option JVal
deriving DecidableEq

/-- Response of the `/api/update-settings` handler. -/
inductive UpdResp where
  | updated (s : Settings)
  | error (msg : String)
deriving DecidableEq

/-- The `min_atr_percentage` branch of the handler:
`if 'min_atr_percentage' in new_settings: ... = float(...)`. -/
def applyMin (st : Settings) (b : Body) : Except String Settings :=
  match b.min_atr_percentage with
  | none => .ok st
  | some v =>
      match pyFloat v with
      | some q => .ok { st with min_atr_percentage := q }
      | none => .error "could not convert value to float"

/-- The `atr_period` branch: `... = int(new_settings['atr_period'])`. -/
def applyPeriod (st : Settings) (b : Body) : Except String Settings :=
  match b.atr_period with
  | none => .ok st
  | some v =>
      match pyInt v with
      | some n => .ok { st with atr_period := n }
      | none => .error "could not convert value to int"

/-- The `atr_multiplier` branch of the handler. -/
def applyMult (st : Settings) (b : Body) : Except String Settings :=
  match b.atr_multiplier with
  | none => .ok st
  | some v =>
      match pyFloat v with
      | some q => .ok { st with atr_multiplier := q }
      | none => .error "could not convert value to float"

/-- The `interval` branch: the raw JSON value is stored, no conversion
is performed, so this branch cannot raise. -/
def applyInterval (st : Settings) (b : Body) : Settings :=
  match b.interval with
  | none => st
  | some v => { st with interval := v }

/-- The `/api/update-settings` handler.  Each field is converted and
assigned to the (mutable) settings in source order; when a conversion
raises, the `except` clause answers with an error response, leaving the
assignments already performed in place. -/
def update_settings (st : Settings) (b : Body) : Settings × UpdResp :=
  match applyMin st b with
  | .error m => (st, .error m)
  | .ok s1 =>
      match applyPeriod s1 b with
      | .error m => (s1, .error m)
      | .ok s2 =>
          match applyMult s2 b with
          | .error m => (s2, .error m)
          | .ok s3 =>
              let s4 := applyInterval s3 b
              (s4, .updated s4)

/-- Total variant of `applyMin`: the state after the first branch when
that branch did not raise (used to phrase mid-way update results). -/
def applyMinD (st : Settings) (b : Body) : Settings :=
  match b.min_atr_percentage with
  | none => st
  | some v =>
      match pyFloat v with
      | some q => { st with min_atr_percentage := q }
      | none => st

/-- Total variant of `applyPeriod`. -/
def applyPeriodD (st : Settings) (b : Body) : Settings :=
  match b.atr_period with
  | none => st
  | some v =>
      match pyInt v with
      | some n => { st with atr_period := n }
      | none => st

/-- A candle row after `pd.to_numeric(..., errors='coerce')`: each field
is a number or NaN (`none`).  Only the columns read by the indicator
calculator are modelled. -/
structure Candle where
  high : Option ℚ
  low : Option ℚ
  close : Option ℚ
deriving DecidableEq

/-- A candle all of whose fields parsed successfully. -/
structure CandleQ where
  high : ℚ
  low : ℚ
  close : ℚ
deriving DecidableEq

/-- View of a fully parsed candle as a `Candle`. -/
def embedQ (c : CandleQ) : Candle :=
  ⟨some c.high, some c.low, some c.close⟩

/-- NaN-propagating subtraction on series entries. -/
def osub (a b : Option ℚ) : Option ℚ :=
  a.bind fun x => b.map fun y => x - y

/-- NaN-propagating absolute value. -/
def oabs (a : Option ℚ) : Option ℚ :=
  a.map fun x => |x|

/-- pandas NaN-skipping binary maximum (`max(axis=1)` skips NaN by
default: the maximum of the defined entries, NaN only if all are NaN). -/
def nmax : Option ℚ → Option ℚ → Option ℚ
  | none, b => b
  | some x, none => some x
  | some x, some y => some (max x y)

/-- One row of the true-range computation of `calculate_atr`:
`max(high - low, abs(high - prev_close), abs(low - prev_close))` with
pandas NaN semantics; `prev` is the shifted close (NaN on the first row). -/
def rowTR (c : Candle) (prev : Option ℚ) : Option ℚ :=
  nmax (nmax (osub c.high c.low) (oabs (osub c.high prev))) (oabs (osub c.low prev))

/-- The true-range column: `pd.concat([tr1, tr2, tr3], axis=1).max(axis=1)`
where `prev_close = close.shift(1)`. -/
def trList : Option ℚ → List Candle → List (Option ℚ)
  | _, [] => []
  | prev, c :: rest => rowTR c prev :: trList c.close rest

/-- Last element of `series.rolling(window=p).mean()`: the mean of the
final `p` entries, NaN (`none`) unless there are `p` of them and all are
defined (pandas default `min_periods = window` counts non-NaN entries). -/
def windowMean (l : List (Option ℚ)) (p : ℕ) : Option ℚ :=
  let w := l.drop (l.length - p)
  if w.length = p ∧ w.all Option.isSome = true then
    some ((w.filterMap id).sum / (p : ℚ))
  else none

/-- The `calculate_atr` method.  pandas raises for a non-positive rolling
window, so the embedding is meaningful (and only claimed) for
`1 ≤ period`; the guard comparison is the Python `len(df) < period + 1`. -/
def calculate_atr (df : List Candle) (period : ℤ) : ℚ :=
  if (df.length : ℤ) < period + 1 then 0
  else (windowMean (trList none df) period.toNat).getD 0

/-- The `calculate_atr_percentage` method. -/
def calculate_atr_percentage (atr_value current_price multiplier : ℚ) : ℚ :=
  if current_price ≤ 0 then 0
  else atr_value * multiplier / current_price * 100

/-- Spec-side true range of a single candle (written from the spec's
words, for comparison with `rowTR`): the maximum of the three spans, or
`high - low` when there is no previous close. -/
def trueRange (high low : ℚ) (prevClose : Option ℚ) : ℚ :=
  match prevClose with
  | none => high - low
  | some pc => max (high - low) (max |high - pc| |low - pc|)

/-- Spec-side true-range sequence of a fully parsed series. -/
def trsQ : Option ℚ → List CandleQ → List ℚ
  | _, [] => []
  | prev, c :: rest => trueRange c.high c.low prev :: trsQ (some c.close) rest

/-- Latest close of a fetched series, `float(df['close'].iloc[-1])`
(callers only evaluate it on nonempty series). -/
def currentPriceOf (df : List CandleQ) : ℚ :=
  match df.getLast? with
  | some c => c.close
  | none => 0

/-- ATR percentage computed for one fetched series, as in the body of the
`scan_symbols` loop. -/
def symbolPct (df : List CandleQ) (p : ℤ) (mult : ℚ) : ℚ :=
  calculate_atr_percentage (calculate_atr (df.map embedQ) p) (currentPriceOf df) mult

/-- One emitted result row of `scan_symbols`. -/
structure ScanResult where
  symbol : String
  current_price : ℚ
  atr_value : ℚ
  atr_percentage : ℚ
  atr_period : ℤ
  atr_multiplier : ℚ
deriving DecidableEq

/-- The `scan_symbols` loop over an already-listed symbol set.  `fetch`
models `get_kline_data` (symbol, interval, limit), returning `none` on
failure; a fetched series is skipped unless it has at least
`atr_period + 1` candles; a row is emitted when the computed percentage
reaches the threshold.  (`get_active_symbols` is modelled by the `syms`
argument; the pacing `time.sleep` has no observable effect here.) -/
def scan_symbols (fetch : String → JVal → ℤ → Option (List CandleQ))
    (min_atr_percentage : ℚ) (atr_period : ℤ) (atr_multiplier : ℚ)
    (interval : JVal) : List String → List ScanResult
  | [] => []
  | s :: rest =>
      let tail := scan_symbols fetch min_atr_percentage atr_period atr_multiplier interval rest
      match fetch s interval (atr_period + 50) with
      | none => tail
      | some df =>
          if (df.length : ℤ) < atr_period + 1 then tail
          else
            let atr_value := calculate_atr (df.map embedQ) atr_period
            let current_price := currentPriceOf df
            let atr_percentage := calculate_atr_percentage atr_value current_price atr_multiplier
            if min_atr_percentage ≤ atr_percentage then
              { symbol := s
                current_price := current_price
                atr_value := atr_value
                atr_percentage := atr_percentage
                atr_period := atr_period
                atr_multiplier := atr_multiplier } :: tail
            else tail

/-- Descending order on result rows: earlier rows have percentage at
least that of later rows. -/
def pctGE (a b : ScanResult) : Prop :=
  b.atr_percentage ≤ a.atr_percentage

instance : DecidableRel pctGE := fun a b =>
  inferInstanceAs (Decidable (b.atr_percentage ≤ a.atr_percentage))

/-- Stable descending insertion: the new row goes in front of the first
existing row with strictly smaller percentage, hence after all existing
rows of equal percentage. -/
def insDesc (x : ScanResult) : List ScanResult → List ScanResult
  | [] => [x]
  | y :: ys =>
      if y.atr_percentage < x.atr_percentage then x :: y :: ys
      else y :: insDesc x ys

/-- Stable descending sort by `atr_percentage`, the model of Python's
stable `results.sort(key=lambda x: x['atr_percentage'], reverse=True)`
(and of `sorted(..., reverse=True)` in the export handler). -/
def sortDesc (l : List ScanResult) : List ScanResult :=
  l.foldl (fun acc x => insDesc x acc) []

/-- Control point of one thread executing `perform_scan`: before the
flag assignment, after it, after the settings arguments were read (the
run then works from that snapshot), and finished. -/
inductive ScanPhase where
  | spawned
  | flagged
  | running (snap : Settings)
  | done
deriving DecidableEq

/-- The global `scan_data` dictionary. -/
structure ScanState where
  results : List ScanResult
  last_update : Option ℕ
  scanning : Bool
  scan_settings : Settings
deriving DecidableEq

/-- Whole-process shared state: the global store plus the control points
of every thread that is executing (or has executed) `perform_scan`. -/
structure Sys where
  store : ScanState
  threads : List ScanPhase
deriving DecidableEq

/-- State of the upstream world during one publish step: the symbol
listing obtained by `get_active_symbols` and the candle fetcher. -/
structure Env where
  fetch : String → JVal → ℤ → Option (List CandleQ)
  symbols : List String

/-- The process-start state: empty results, no update yet, not scanning,
default settings, no scan thread yet. -/
def initSys : Sys :=
  ⟨⟨[], none, false, defaultSettings⟩, []⟩

/-- Response of the `/api/force-scan` handler. -/
inductive FSResp where
  | scan_started
  | scan_already_running
deriving DecidableEq

/-- The `/api/force-scan` handler: when `scanning` is false a new
`perform_scan` thread is spawned, otherwise nothing is started. -/
def force_scan (s : Sys) : Sys × FSResp :=
  if s.store.scanning then (s, .scan_already_running)
  else ({ s with threads := s.threads ++ [.spawned] }, .scan_started)

/-- A firing of the hourly `schedule_scans` loop: it calls
`perform_scan` unconditionally, without consulting the flag. -/
def timer_fire (s : Sys) : Sys :=
  { s with threads := s.threads ++ [.spawned] }

/-- First statement of `perform_scan`: `scan_data['scanning'] = True`. -/
def scanSetFlag (s : Sys) (i : ℕ) : Option Sys :=
  match s.threads[i]? with
  | some .spawned =>
      some { s with
        store := { s.store with scanning := true }
        threads := s.threads.set i .flagged }
  | _ => none

/-- Argument evaluation of the `scanner.scan_symbols(...)` call: the four
settings fields are read from the shared store, once, into the run. -/
def scanReadSettings (s : Sys) (i : ℕ) : Option Sys :=
  match s.threads[i]? with
  | some .flagged =>
      some { s with threads := s.threads.set i (.running s.store.scan_settings) }
  | _ => none

/-- Completion of a run: results are sorted descending and published
together with the timestamp, and the flag is cleared. -/
def scanPublish (s : Sys) (i : ℕ) (e : Env) (t : ℕ) : Option Sys :=
  match s.threads[i]? with
  | some (.running snap) =>
      some { s with
        store := { s.store with
          results := sortDesc (scan_symbols e.fetch snap.min_atr_percentage
            snap.atr_period snap.atr_multiplier snap.interval e.symbols)
          last_update := some t
          scanning := false }
        threads := s.threads.set i .done }
  | _ => none

/-- The `except` path of `perform_scan`: an exception anywhere after the
flag was set is caught, and the flag is cleared. -/
def scanFail (s : Sys) (i : ℕ) : Option Sys :=
  match s.threads[i]? with
  | some .flagged =>
      some { s with
        store := { s.store with scanning := false }
        threads := s.threads.set i .done }
  | some (.running _) =>
      some { s with
        store := { s.store with scanning := false }
        threads := s.threads.set i .done }
  | _ => none

/-- The `/api/update-settings` handler acting on the whole store. -/
def update_settings_store (s : Sys) (b : Body) : Sys × UpdResp :=
  let r := update_settings s.store.scan_settings b
  ({ s with store := { s.store with scan_settings := r.1 } }, r.2)

/-- Response of `GET /api/scan-data`. -/
structure ScanDataResp where
  results : List ScanResult
  last_update : Option ℕ
  scanning : Bool
  total_symbols : ℕ
  scan_settings : Settings
deriving DecidableEq

/-- The `GET /api/scan-data` handler: a plain read of the store. -/
def get_scan_data (st : ScanState) : ScanDataResp :=
  ⟨st.results, st.last_update, st.scanning, st.results.length, st.scan_settings⟩

/-- TradingView formatting of one result row. -/
def fmtSymbol (r : ScanResult) : String :=
  "BINANCE:" ++ r.symbol ++ ".P"

/-- The `GET /api/export-symbols` handler. -/
def export_symbols (st : ScanState) : String × ℕ :=
  if st.results.isEmpty then ("", 0)
  else
    let sorted := sortDesc st.results
    let symbol_list := sorted.map fmtSymbol
    (String.intercalate "," symbol_list, symbol_list.length)

/-- States of the process reachable by interleaving HTTP handlers, timer
firings and the statements of concurrently running `perform_scan`
bodies. -/
inductive Reachable : Sys → Prop where
  | init : Reachable initSys
  | force {s} : Reachable s → Reachable (force_scan s).1
  | timer {s} : Reachable s → Reachable (timer_fire s)
  | upd {s} (b : Body) : Reachable s → Reachable (update_settings_store s b).1
  | flag {s s'} (i : ℕ) : Reachable s → scanSetFlag s i = some s' → Reachable s'
  | read {s s'} (i : ℕ) : Reachable s → scanReadSettings s i = some s' → Reachable s'
  | publish {s s'} (i : ℕ) (e : Env) (t : ℕ) :
      Reachable s → scanPublish s i e t = some s' → Reachable s'
  | failStep {s s'} (i : ℕ) : Reachable s → scanFail s i = some s' → Reachable s'

/-- A thread currently executing the body of `perform_scan`. -/
def isActiveRun : ScanPhase → Bool
  | .flagged => true
  | .running _ => true
  | _ => false

/-- Number of concurrently executing scan bodies. -/
def activeScans (s : Sys) : ℕ :=
  s.threads.countP isActiveRun

lemma mem_insDesc {a x : ScanResult} {l : List ScanResult} :
    a ∈ insDesc x l ↔ a = x ∨ a ∈ l := by
  induction l with
  | nil => simp [insDesc]
  | cons y ys ih =>
      by_cases hc : y.atr_percentage < x.atr_percentage <;>
        simp [insDesc, hc, ih, List.mem_cons] <;> tauto

lemma sorted_insDesc {x : ScanResult} {l : List ScanResult}
    (h : List.Sorted pctGE l) : List.Sorted pctGE (insDesc x l) := by
  induction l with
  | nil => simp [insDesc, pctGE]
  | cons y ys ih =>
      rw [List.sorted_cons] at h
      by_cases hc : y.atr_percentage < x.atr_percentage
      · rw [insDesc, if_pos hc, List.sorted_cons]
        refine ⟨?_, List.sorted_cons.mpr h⟩
        intro b hb
        rcases List.mem_cons.mp hb with hb | hb
        · subst hb; exact le_of_lt hc
        · exact le_trans (h.1 b hb) (le_of_lt hc)
      · rw [insDesc, if_neg hc, List.sorted_cons]
        refine ⟨?_, ih h.2⟩
        intro b hb
        rcases mem_insDesc.mp hb with hb | hb
        · subst hb; exact not_lt.mp hc
        · exact h.1 b hb

lemma perm_insDesc (x : ScanResult) (l : List ScanResult) :
    (insDesc x l).Perm (x :: l) := by
  induction l with
  | nil => rfl
  | cons y ys ih =>
      by_cases hc : y.atr_percentage < x.atr_percentage
      · rw [insDesc, if_pos hc]
      · rw [insDesc, if_neg hc]
        exact (ih.cons y).trans (List.Perm.swap x y ys)

lemma sortDesc_sorted (l : List ScanResult) : List.Sorted pctGE (sortDesc l) := by
  suffices h : ∀ acc, List.Sorted pctGE acc →
      List.Sorted pctGE (l.foldl (fun acc x => insDesc x acc) acc) by
    exact h [] (by simp)
  induction l with
  | nil => intro acc hacc; exact hacc
  | cons y ys ih => intro acc hacc; exact ih _ (sorted_insDesc hacc)

lemma sortDesc_perm (l : List ScanResult) : (sortDesc l).Perm l := by
  suffices h : ∀ acc, (l.foldl (fun acc x => insDesc x acc) acc).Perm (acc ++ l) by
    simpa using h []
  induction l with
  | nil => intro acc; simp
  | cons y ys ih =>
      intro acc
      exact (ih (insDesc y acc)).trans
        (((perm_insDesc y acc).append_right ys).trans List.perm_middle.symm)

lemma applyMin_ok {st : Settings} {b : Body} {s : Settings}
    (h : applyMin st b = .ok s) : s = applyMinD st b := by
  unfold applyMin applyMinD at *
  cases hv : b.min_atr_percentage with
  | none => simp [hv] at h ⊢; exact h.symm
  | some v =>
      cases hf : pyFloat v with
      | none => simp [hv, hf] at h
      | some q => simp [hv, hf] at h ⊢; exact h.symm

lemma applyMin_error {st : Settings} {b : Body} {m : String}
    (h : applyMin st b = .error m) :
    ∃ v, b.min_atr_percentage = some v ∧ pyFloat v = none := by
  unfold applyMin at h
  cases hv : b.min_atr_percentage with
  | none => simp [hv] at h
  | some v =>
      cases hf : pyFloat v with
      | none => exact ⟨v, rfl, hf⟩
      | some q => simp [hv, hf] at h

lemma applyPeriod_ok {st : Settings} {b : Body} {s : Settings}
    (h : applyPeriod st b = .ok s) : s = applyPeriodD st b := by
  unfold applyPeriod applyPeriodD at *
  cases hv : b.atr_period with
  | none => simp [hv] at h ⊢; exact h.symm
  | some v =>
      cases hf : pyInt v with
      | none => simp [hv, hf] at h
      | some n => simp [hv, hf] at h ⊢; exact h.symm

lemma applyPeriod_error {st : Settings} {b : Body} {m : String}
    (h : applyPeriod st b = .error m) :
    ∃ v, b.atr_period = some v ∧ pyInt v = none := by
  unfold applyPeriod at h
  cases hv : b.atr_period with
  | none => simp [hv] at h
  | some v =>
      cases hf : pyInt v with
      | none => exact ⟨v, rfl, hf⟩
      | some n => simp [hv, hf] at h

lemma applyMult_error {st : Settings} {b : Body} {m : String}
    (h : applyMult st b = .error m) :
    ∃ v, b.atr_multiplier = some v ∧ pyFloat v = none := by
  unfold applyMult at h
  cases hv : b.atr_multiplier with
  | none => simp [hv] at h
  | some v =>
      cases hf : pyFloat v with
      | none => exact ⟨v, rfl, hf⟩
      | some q => simp [hv, hf] at h

/-- Body of a request supplying a convertible threshold followed by a
non-convertible period (`{"min_atr_percentage": 1.25, "atr_period": null}`). -/
def bodyBad : Body :=
  ⟨some (.num (5/4)), some .null, none, none⟩

/-- C1 counterexample: on this request the handler answers with the
structured error response, yet process state is NOT unchanged — the
`min_atr_percentage` field, listed before the failing `atr_period`
field, was already overwritten (0.5 became 1.25). -/
theorem update_settings_error_mutates_state :
    (update_settings defaultSettings bodyBad).2
        = UpdResp.error "could not convert value to int"
    ∧ (update_settings defaultSettings bodyBad).1.min_atr_percentage = 5/4
    ∧ defaultSettings.min_atr_percentage = 1/2
    ∧ (5 : ℚ)/4 ≠ 1/2 := by
  have hres : update_settings defaultSettings bodyBad
      = ({ defaultSettings with min_atr_percentage := 5/4 },
         .error "could not convert value to int") := by
    rfl
  refine ⟨by rw [hres], by rw [hres], rfl, by norm_num⟩

/-- C1 (amended): when a conversion fails, the handler returns the
structured error response, and the stored settings equal the original
settings with exactly the provided fields BEFORE the failing field
already applied; the failing field and all later fields are unchanged. -/
theorem update_settings_error_applied_before_failure (st : Settings) (b : Body)
    (msg : String) (h : (update_settings st b).2 = .error msg) :
    (∃ v, b.min_atr_percentage = some v ∧ pyFloat v = none
        ∧ (update_settings st b).1 = st)
    ∨ (∃ v, b.atr_period = some v ∧ pyInt v = none
        ∧ (update_settings st b).1 = applyMinD st b)
    ∨ (∃ v, b.atr_multiplier = some v ∧ pyFloat v = none
        ∧ (update_settings st b).1 = applyPeriodD (applyMinD st b) b) := by
  unfold update_settings at h ⊢
  cases h1 : applyMin st b with
  | error m =>
      obtain ⟨v, hv, hf⟩ := applyMin_error h1
      exact Or.inl ⟨v, hv, hf, by simp [h1]⟩
  | ok s1 =>
      cases h2 : applyPeriod s1 b with
      | error m =>
          obtain ⟨v, hv, hf⟩ := applyPeriod_error h2
          refine Or.inr (Or.inl ⟨v, hv, hf, ?_⟩)
          simp [h1, h2]
          exact applyMin_ok h1
      | ok s2 =>
          cases h3 : applyMult s2 b with
          | error m =>
              obtain ⟨v, hv, hf⟩ := applyMult_error h3
              refine Or.inr (Or.inr ⟨v, hv, hf, ?_⟩)
              simp [h1, h2, h3]
              rw [applyPeriod_ok h2, applyMin_ok h1]
          | ok s3 =>
              simp [h1, h2, h3] at h

/-- Witness for the amended C1 theorem at the concrete request `bodyBad`. -/
theorem update_settings_error_applied_before_failure_witness :
    (∃ v, bodyBad.min_atr_percentage = some v ∧ pyFloat v = none
        ∧ (update_settings defaultSettings bodyBad).1 = defaultSettings)
    ∨ (∃ v, bodyBad.atr_period = some v ∧ pyInt v = none
        ∧ (update_settings defaultSettings bodyBad).1
            = applyMinD defaultSettings bodyBad)
    ∨ (∃ v, bodyBad.atr_multiplier = some v ∧ pyFloat v = none
        ∧ (update_settings defaultSettings bodyBad).1
            = applyPeriodD (applyMinD defaultSettings bodyBad) bodyBad) :=
  update_settings_error_applied_before_failure defaultSettings bodyBad
    "could not convert value to int" rfl

/-- C6: the per-candle true range computed by `calculate_atr` equals
max(high - low, abs (high - prevClose), abs (low - prevClose)), and on
the first candle of a series (shifted previous close undefined) it
equals high - low. -/
theorem trueRange_formula (h l cl pc : ℚ) :
    rowTR ⟨some h, some l, some cl⟩ (some pc)
        = some (max (h - l) (max |h - pc| |l - pc|))
    ∧ rowTR ⟨some h, some l, some cl⟩ none = some (h - l) := by
  constructor
  · simp [rowTR, nmax, osub, oabs, max_assoc]
  · simp [rowTR, nmax, osub, oabs]

/-- C7: `calculate_atr_percentage` returns 0 when the current price is
non-positive, and otherwise (indicatorValue * multiplier / currentPrice)
* 100. -/
theorem percentage_of_price_formula (a p m : ℚ) :
    (p ≤ 0 → calculate_atr_percentage a p m = 0)
    ∧ (0 < p → calculate_atr_percentage a p m = a * m / p * 100) := by
  constructor
  · intro hp; simp [calculate_atr_percentage, hp]
  · intro hp; rw [calculate_atr_percentage, if_neg (not_le.mpr hp)]

/-- Witness for C7 at concrete inputs. -/
theorem percentage_of_price_formula_witness :
    calculate_atr_percentage 2 0 3 = 0
    ∧ calculate_atr_percentage 2 4 3 = 2 * 3 / 4 * 100 :=
  ⟨(percentage_of_price_formula 2 0 3).1 (by norm_num),
   (percentage_of_price_formula 2 4 3).2 (by norm_num)⟩

lemma trsQ_length (l : List CandleQ) : ∀ prev, (trsQ prev l).length = l.length := by
  induction l with
  | nil => intro prev; rfl
  | cons c rest ih => intro prev; simp [trsQ, ih]

lemma rowTR_embed (c : CandleQ) (prev : Option ℚ) :
    rowTR (embedQ c) prev = some (trueRange c.high c.low prev) := by
  cases prev with
  | none => simp [rowTR, embedQ, osub, oabs, nmax, trueRange]
  | some pc => simp [rowTR, embedQ, osub, oabs, nmax, trueRange, max_assoc]

lemma embedQ_close (c : CandleQ) : (embedQ c).close = some c.close := rfl

lemma trList_embed (l : List CandleQ) :
    ∀ prev, trList prev (l.map embedQ) = (trsQ prev l).map some := by
  induction l with
  | nil => intro prev; rfl
  | cons c rest ih =>
      intro prev
      simp [trList, trsQ, rowTR_embed, embedQ_close, ih]

lemma all_isSome_map_some (l : List ℚ) : (l.map some).all Option.isSome = true := by
  rw [List.all_eq_true]
  intro x hx
  obtain ⟨a, _, rfl⟩ := List.mem_map.mp hx
  rfl

lemma windowMean_map_some (l : List ℚ) (p : ℕ) (hp : p ≤ l.length) :
    windowMean (l.map some) p = some ((l.drop (l.length - p)).sum / (p : ℚ)) := by
  have hdm : (l.map some).drop ((l.map some).length - p)
      = (l.drop (l.length - p)).map some := by
    rw [List.length_map, List.map_drop]
  have h1 : ((l.drop (l.length - p)).map some).length = p := by
    rw [List.length_map, List.length_drop]
    omega
  have h2 : ((l.drop (l.length - p)).map some).all Option.isSome = true :=
    all_isSome_map_some _
  rw [windowMean, hdm, if_pos ⟨h1, h2⟩]
  have h3 : ((l.drop (l.length - p)).map some).filterMap id = l.drop (l.length - p) := by
    rw [List.filterMap_map]
    exact List.filterMap_some _
  rw [h3]

lemma windowMean_of_all_none (l : List (Option ℚ)) (p : ℕ) (hp : 1 ≤ p)
    (h : ∀ x ∈ l, x = none) : windowMean l p = none := by
  rw [windowMean, if_neg]
  rintro ⟨h1, h2⟩
  cases hw : l.drop (l.length - p) with
  | nil => rw [hw] at h1; simp at h1; omega
  | cons a as =>
      rw [hw] at h2
      have ha : a ∈ l := List.drop_subset _ _ (by rw [hw]; exact List.mem_cons_self a as)
      have hna := h a ha
      subst hna
      simp at h2

/-- C2: for a fully parsed candle series, `calculate_atr` returns 0 when
the series has fewer than period + 1 candles, and otherwise returns the
simple moving average of the true-range values over the most recent
`period` candles; on any series (NaN entries allowed) whose true-range
values are all undefined it returns 0 because the rolling average is
undefined. -/
theorem averageTrueRange_spec (df : List CandleQ) (p : ℤ) (hp : 1 ≤ p) :
    ((df.length : ℤ) < p + 1 → calculate_atr (df.map embedQ) p = 0)
    ∧ (p + 1 ≤ (df.length : ℤ) →
        calculate_atr (df.map embedQ) p
          = ((trsQ none df).drop (df.length - p.toNat)).sum / (p : ℚ))
    ∧ (∀ dg : List Candle, (∀ x ∈ trList none dg, x = none) →
        calculate_atr dg p = 0) := by
  refine ⟨?_, ?_, ?_⟩
  · intro hshort
    have hc : ((df.map embedQ).length : ℤ) < p + 1 := by
      rw [List.length_map]; exact hshort
    rw [calculate_atr, if_pos hc]
  · intro hlong
    have hc : ¬ ((df.map embedQ).length : ℤ) < p + 1 := by
      rw [List.length_map]; omega
    have hple : p.toNat ≤ (trsQ none df).length := by
      rw [trsQ_length]; omega
    rw [calculate_atr, if_neg hc, trList_embed, windowMean_map_some _ _ hple,
      trsQ_length]
    simp only [Option.getD_some]
    have hq : ((p.toNat : ℕ) : ℚ) = (p : ℚ) := by
      have h0 : (0 : ℤ) ≤ p := by omega
      exact_mod_cast congrArg (Int.cast : ℤ → ℚ) (Int.toNat_of_nonneg h0)
    rw [hq]
  · intro dg hall
    by_cases hshort : (dg.length : ℤ) < p + 1
    · rw [calculate_atr, if_pos hshort]
    · rw [calculate_atr, if_neg hshort,
        windowMean_of_all_none _ _ (by omega) hall]
      rfl

/-- Two fully parsed candles used to exercise the ATR computation. -/
def dfW : List CandleQ := [⟨3, 1, 2⟩, ⟨5, 2, 4⟩]

/-- Witness for C2 at concrete inputs (period 1, two candles; empty
series; an all-NaN series). -/
theorem averageTrueRange_spec_witness :
    calculate_atr (dfW.map embedQ) 1
        = ((trsQ none dfW).drop (dfW.length - (1 : ℤ).toNat)).sum / ((1 : ℤ) : ℚ)
    ∧ calculate_atr (([] : List CandleQ).map embedQ) 1 = 0
    ∧ calculate_atr [Candle.mk none none none] 1 = 0 :=
  ⟨(averageTrueRange_spec dfW 1 (by norm_num)).2.1 (by norm_num [dfW]),
   (averageTrueRange_spec [] 1 (by norm_num)).1 (by norm_num),
   (averageTrueRange_spec [] 1 (by norm_num)).2.2 [Candle.mk none none none]
     (by decide)⟩

/-- One iteration of the `scan_symbols` loop as an Option-valued map. -/
def processSym (fetch : String → JVal → ℤ → Option (List CandleQ))
    (min_atr_percentage : ℚ) (atr_period : ℤ) (atr_multiplier : ℚ)
    (interval : JVal) (s : String) : Option ScanResult :=
  (fetch s interval (atr_period + 50)).bind fun df =>
    if (df.length : ℤ) < atr_period + 1 then none
    else if min_atr_percentage ≤ symbolPct df atr_period atr_multiplier then
      some { symbol := s
             current_price := currentPriceOf df
             atr_value := calculate_atr (df.map embedQ) atr_period
             atr_percentage := symbolPct df atr_period atr_multiplier
             atr_period := atr_period
             atr_multiplier := atr_multiplier }
    else none

lemma scan_symbols_eq_filterMap (fetch : String → JVal → ℤ → Option (List CandleQ))
    (m : ℚ) (p : ℤ) (mult : ℚ) (iv : JVal) :
    ∀ syms, scan_symbols fetch m p mult iv syms
      = syms.filterMap (processSym fetch m p mult iv) := by
  intro syms
  induction syms with
  | nil => rfl
  | cons s rest ih =>
      cases hf : fetch s iv (p + 50) with
      | none => simp [scan_symbols, processSym, hf, ih]
      | some df =>
          by_cases hlen : (df.length : ℤ) < p + 1
          · simp [scan_symbols, processSym, hf, hlen, ih]
          · by_cases hm : m ≤ calculate_atr_percentage
                (calculate_atr (df.map embedQ) p) (currentPriceOf df) mult
            · simp [scan_symbols, processSym, symbolPct, hf, hlen, hm, ih]
            · simp [scan_symbols, processSym, symbolPct, hf, hlen, hm, ih]

lemma processSym_symbol {fetch : String → JVal → ℤ → Option (List CandleQ)}
    {m : ℚ} {p : ℤ} {mult : ℚ} {iv : JVal} {a : String} {r : ScanResult}
    (h : processSym fetch m p mult iv a = some r) :
    r.symbol = a ∧ r.atr_period = p ∧ r.atr_multiplier = mult := by
  unfold processSym at h
  cases hf : fetch a iv (p + 50) with
  | none => rw [hf] at h; exact Option.noConfusion h
  | some df =>
      rw [hf] at h
      simp only [Option.some_bind] at h
      split at h
      · exact Option.noConfusion h
      · split at h
        · cases h; exact ⟨rfl, rfl, rfl⟩
        · exact Option.noConfusion h

lemma processSym_some_iff (fetch : String → JVal → ℤ → Option (List CandleQ))
    (m : ℚ) (p : ℤ) (mult : ℚ) (iv : JVal) (a : String) :
    (∃ r, processSym fetch m p mult iv a = some r) ↔
      ∃ df, fetch a iv (p + 50) = some df ∧ p + 1 ≤ (df.length : ℤ)
        ∧ m ≤ symbolPct df p mult := by
  unfold processSym
  cases hf : fetch a iv (p + 50) with
  | none => simp
  | some df =>
      simp only [Option.some_bind]
      by_cases hlen : (df.length : ℤ) < p + 1
      · rw [if_pos hlen]
        constructor
        · rintro ⟨r, hr⟩; exact Option.noConfusion hr
        · rintro ⟨df2, hdf2, hlen2, hm2⟩
          rw [Option.some_inj] at hdf2
          subst hdf2
          omega
      · rw [if_neg hlen]
        by_cases hm : m ≤ symbolPct df p mult
        · rw [if_pos hm]
          exact ⟨fun _ => ⟨df, rfl, by omega, hm⟩, fun _ => ⟨_, rfl⟩⟩
        · rw [if_neg hm]
          constructor
          · rintro ⟨r, hr⟩; exact Option.noConfusion hr
          · rintro ⟨df2, hdf2, hlen2, hm2⟩
            rw [Option.some_inj] at hdf2
            subst hdf2
            exact absurd hm2 hm

lemma scan_symbols_param_mem {fetch : String → JVal → ℤ → Option (List CandleQ)}
    {m : ℚ} {p : ℤ} {mult : ℚ} {iv : JVal} {syms : List String} {r : ScanResult}
    (h : r ∈ scan_symbols fetch m p mult iv syms) :
    r.atr_period = p ∧ r.atr_multiplier = mult := by
  rw [scan_symbols_eq_filterMap] at h
  obtain ⟨a, _, hpa⟩ := List.mem_filterMap.mp h
  exact (processSym_symbol hpa).2

/-- C5: a run of the scan loop emits a result for a symbol precisely
when its fetch succeeds with at least period + 1 candles and the
computed percentage reaches the threshold; a symbol whose fetch fails or
whose series is too short is skipped without affecting the processing of
the remaining symbols.  (pandas raises for a non-positive rolling
window, so the statement is conditioned on 1 ≤ period.) -/
theorem scan_symbols_inclusion
    (fetch : String → JVal → ℤ → Option (List CandleQ))
    (m : ℚ) (p : ℤ) (mult : ℚ) (iv : JVal) (syms : List String) (s : String)
    (hp : 1 ≤ p) :
    ((∃ r ∈ scan_symbols fetch m p mult iv syms, r.symbol = s) ↔
      s ∈ syms ∧ ∃ df, fetch s iv (p + 50) = some df
        ∧ p + 1 ≤ (df.length : ℤ) ∧ m ≤ symbolPct df p mult)
    ∧ (∀ (s0 : String) (rest : List String),
        fetch s0 iv (p + 50) = none →
          scan_symbols fetch m p mult iv (s0 :: rest)
            = scan_symbols fetch m p mult iv rest)
    ∧ (∀ (s0 : String) (rest : List String) (df : List CandleQ),
        fetch s0 iv (p + 50) = some df → (df.length : ℤ) < p + 1 →
          scan_symbols fetch m p mult iv (s0 :: rest)
            = scan_symbols fetch m p mult iv rest) := by
  refine ⟨?_, ?_, ?_⟩
  · rw [scan_symbols_eq_filterMap]
    constructor
    · rintro ⟨r, hr, hsym⟩
      obtain ⟨a, ha, hpa⟩ := List.mem_filterMap.mp hr
      have has : a = s := by
        rw [← (processSym_symbol hpa).1, hsym]
      subst has
      exact ⟨ha, (processSym_some_iff fetch m p mult iv a).mp ⟨r, hpa⟩⟩
    · rintro ⟨hs, hcond⟩
      obtain ⟨r, hr⟩ := (processSym_some_iff fetch m p mult iv s).mpr hcond
      exact ⟨r, List.mem_filterMap.mpr ⟨s, hs, hr⟩, (processSym_symbol hr).1⟩
  · intro s0 rest hf
    rw [scan_symbols_eq_filterMap, scan_symbols_eq_filterMap,
      List.filterMap_cons_none (by simp [processSym, hf])]
  · intro s0 rest df hf hlen
    rw [scan_symbols_eq_filterMap, scan_symbols_eq_filterMap,
      List.filterMap_cons_none (by simp [processSym, hf, hlen])]

/-- Candle fetcher used by the C5 witness. -/
def fetchW : String → JVal → ℤ → Option (List CandleQ) :=
  fun s _ _ => if s = "AAAUSDT" then some dfW else none

/-- Witness for C5: with the threshold set to the computed percentage
itself, the single listed symbol is emitted. -/
theorem scan_symbols_inclusion_witness :
    ∃ r ∈ scan_symbols fetchW (symbolPct dfW 1 1) 1 1 (JVal.str "1m") ["AAAUSDT"],
      r.symbol = "AAAUSDT" :=
  (scan_symbols_inclusion fetchW (symbolPct dfW 1 1) 1 1 (JVal.str "1m")
      ["AAAUSDT"] "AAAUSDT" (by norm_num)).1.mpr
    ⟨by simp, dfW, by simp [fetchW], by norm_num [dfW], le_refl _⟩

lemma force_scan_results (s : Sys) :
    ((force_scan s).1).store.results = s.store.results := by
  by_cases h : s.store.scanning <;> simp [force_scan, h]

lemma scanSetFlag_results {s s' : Sys} {i : ℕ} (h : scanSetFlag s i = some s') :
    s'.store.results = s.store.results := by
  unfold scanSetFlag at h
  split at h
  · cases h; rfl
  · exact Option.noConfusion h

lemma scanReadSettings_results {s s' : Sys} {i : ℕ}
    (h : scanReadSettings s i = some s') :
    s'.store.results = s.store.results := by
  unfold scanReadSettings at h
  split at h
  · cases h; rfl
  · exact Option.noConfusion h

lemma scanFail_results {s s' : Sys} {i : ℕ} (h : scanFail s i = some s') :
    s'.store.results = s.store.results := by
  unfold scanFail at h
  split at h
  · cases h; rfl
  · cases h; rfl
  · exact Option.noConfusion h

lemma scanPublish_results {s s' : Sys} {i : ℕ} {e : Env} {t : ℕ}
    (h : scanPublish s i e t = some s') :
    ∃ snap, s.threads[i]? = some (.running snap)
      ∧ s'.store.results = sortDesc (scan_symbols e.fetch snap.min_atr_percentage
          snap.atr_period snap.atr_multiplier snap.interval e.symbols) := by
  unfold scanPublish at h
  split at h
  next snap heq => cases h; exact ⟨snap, heq, rfl⟩
  next => exact Option.noConfusion h

/-- C3: in every reachable state of the process, the stored results list
(and hence the list served by the scan-data read handler) is sorted in
descending order of `atr_percentage`. -/
theorem results_sorted_when_observed (s : Sys) (h : Reachable s) :
    List.Sorted pctGE s.store.results
    ∧ List.Sorted pctGE (get_scan_data s.store).results := by
  have main : List.Sorted pctGE s.store.results := by
    induction h with
    | init => simp [initSys]
    | force ha ih => rw [force_scan_results]; exact ih
    | timer ha ih => exact ih
    | upd b ha ih => exact ih
    | flag i ha hstep ih => rw [scanSetFlag_results hstep]; exact ih
    | read i ha hstep ih => rw [scanReadSettings_results hstep]; exact ih
    | publish i e t ha hstep ih =>
        obtain ⟨snap, _, hres⟩ := scanPublish_results hstep
        rw [hres]
        exact sortDesc_sorted _
    | failStep i ha hstep ih => rw [scanFail_results hstep]; exact ih
  exact ⟨main, main⟩

/-- Witness for C3 at the initial state. -/
theorem results_sorted_when_observed_witness :
    List.Sorted pctGE initSys.store.results
    ∧ List.Sorted pctGE (get_scan_data initSys.store).results :=
  results_sorted_when_observed initSys Reachable.init

/-- A reachable state in which two scan bodies execute concurrently. -/
def twoRunning : Sys :=
  ⟨⟨[], none, true, defaultSettings⟩,
   [.running defaultSettings, .running defaultSettings]⟩

/-- C4 counterexample: two force-scan requests arriving before either
spawned run has set the `scanning` flag both answer `scan_started`, and
the process reaches a state with TWO concurrently executing scan bodies
— "at most one scan body ever executes at a time" fails on the code. -/
theorem force_scan_two_concurrent_runs :
    Reachable twoRunning ∧ activeScans twoRunning = 2
    ∧ (force_scan (force_scan initSys).1).2 = FSResp.scan_started := by
  refine ⟨?_, rfl, rfl⟩
  have h0 : Reachable initSys := Reachable.init
  have h1 := Reachable.force h0
  have h2 := Reachable.force h1
  have h3 := Reachable.flag 0 h2 rfl
  have h4 := Reachable.flag 1 h3 rfl
  have h5 := Reachable.read 0 h4 rfl
  have h6 := Reachable.read 1 h5 rfl
  exact h6

/-- C4 (amended): the response and the spawning behaviour of the
force-scan handler are exactly determined by the value of the `scanning`
flag the request observes: `scan_already_running` and no new run when it
is true, `scan_started` and exactly one new run when it is false.  The
flag does NOT make scan bodies mutually exclusive (see the
counterexample): a spawned run sets the flag only after it starts, and
the hourly scheduler spawns runs without consulting the flag at all. -/
theorem force_scan_flag_behavior (s : Sys) :
    (s.store.scanning = true → force_scan s = (s, .scan_already_running))
    ∧ (s.store.scanning = false →
        force_scan s = ({ s with threads := s.threads ++ [.spawned] },
          .scan_started)) := by
  constructor <;> intro h <;> simp [force_scan, h]

/-- Witness for the amended C4 theorem at concrete states. -/
theorem force_scan_flag_behavior_witness :
    force_scan twoRunning = (twoRunning, .scan_already_running)
    ∧ force_scan initSys
        = ({ initSys with threads := initSys.threads ++ [.spawned] },
           .scan_started) :=
  ⟨(force_scan_flag_behavior twoRunning).1 rfl,
   (force_scan_flag_behavior initSys).2 rfl⟩

/-- C8: both exits of a scan run — successful publication and the caught
exception — leave the `scanning` flag false. -/
theorem scanning_cleared_at_run_end :
    (∀ (s : Sys) (i : ℕ) (e : Env) (t : ℕ) (s' : Sys),
        scanPublish s i e t = some s' → s'.store.scanning = false)
    ∧ (∀ (s : Sys) (i : ℕ) (s' : Sys),
        scanFail s i = some s' → s'.store.scanning = false) := by
  constructor
  · intro s i e t s' h
    unfold scanPublish at h
    split at h
    · cases h; rfl
    · exact Option.noConfusion h
  · intro s i s' h
    unfold scanFail at h
    split at h
    · cases h; rfl
    · cases h; rfl
    · exact Option.noConfusion h

/-- Upstream world for witnesses: every fetch fails, no symbols listed. -/
def e0 : Env := ⟨fun _ _ _ => none, []⟩

/-- Witness for C8: a completing and a failing run, both started from a
state with two runs in flight, clear the flag. -/
theorem scanning_cleared_at_run_end_witness :
    ((scanPublish twoRunning 0 e0 3).getD initSys).store.scanning = false
    ∧ ((scanFail twoRunning 1).getD initSys).store.scanning = false :=
  ⟨scanning_cleared_at_run_end.1 twoRunning 0 e0 3 _ rfl,
   scanning_cleared_at_run_end.2 twoRunning 1 _ rfl⟩

/-- C9: exporting with an empty result list yields the empty payload;
otherwise the count equals the number of stored results and the payload
is the comma-joined TradingView formatting of the results sorted
descending by percentage (the sorted list is a permutation of the stored
results — one entry per result). -/
theorem export_symbols_spec (st : ScanState) :
    (st.results = [] → export_symbols st = ("", 0))
    ∧ (st.results ≠ [] →
        export_symbols st
          = (String.intercalate "," ((sortDesc st.results).map fmtSymbol),
             st.results.length)
        ∧ List.Sorted pctGE (sortDesc st.results)
        ∧ (sortDesc st.results).Perm st.results) := by
  constructor
  · intro h
    simp [export_symbols, h]
  · intro h
    refine ⟨?_, sortDesc_sorted _, sortDesc_perm _⟩
    obtain ⟨a, l, hres⟩ : ∃ a l, st.results = a :: l := by
      cases hres : st.results with
      | nil => exact absurd hres h
      | cons a l => exact ⟨a, l, rfl⟩
    simp [export_symbols, hres, List.length_map,
      (sortDesc_perm (a :: l)).length_eq]

/-- Two result rows used by the export witness. -/
def rA : ScanResult := ⟨"AAAUSDT", 100, 2, 3, 50, 1/2⟩

/-- Second result row used by the export witness. -/
def rB : ScanResult := ⟨"BBBUSDT", 50, 1, 7, 50, 1/2⟩

/-- A store with two published results. -/
def stW : ScanState := ⟨[rA, rB], none, false, defaultSettings⟩

/-- Witness for C9 on an empty and a two-element store. -/
theorem export_symbols_spec_witness :
    export_symbols { stW with results := [] } = ("", 0)
    ∧ (export_symbols stW
        = (String.intercalate "," ((sortDesc stW.results).map fmtSymbol),
           stW.results.length)
        ∧ List.Sorted pctGE (sortDesc stW.results)
        ∧ (sortDesc stW.results).Perm stW.results) :=
  ⟨(export_symbols_spec { stW with results := [] }).1 rfl,
   (export_symbols_spec stW).2 (by simp [stW])⟩

/-- C10: settings reads and scan parameters.  First, the settings-update
handler never touches the control state of any running scan (its
snapshot included), so an update arriving mid-run cannot alter that
run's parameters.  Second, the read step copies all four current
settings fields into the run, before any instrument is processed.
Third, a run publishes exactly the output of `scan_symbols` applied to
its snapshot: the threshold filtering every instrument and the
atr_period / atr_multiplier recorded in every emitted row are the
snapshot values. -/
theorem settings_snapshot_semantics :
    (∀ (s : Sys) (b : Body),
        ((update_settings_store s b).1).threads = s.threads)
    ∧ (∀ (s : Sys) (i : ℕ) (s' : Sys), scanReadSettings s i = some s' →
        s'.threads[i]? = some (.running s.store.scan_settings)
        ∧ s'.store = s.store)
    ∧ (∀ (s : Sys) (i : ℕ) (e : Env) (t : ℕ) (s' : Sys) (snap : Settings),
        scanPublish s i e t = some s' →
        s.threads[i]? = some (.running snap) →
        s'.store.results
          = sortDesc (scan_symbols e.fetch snap.min_atr_percentage
              snap.atr_period snap.atr_multiplier snap.interval e.symbols)
        ∧ ∀ r ∈ s'.store.results,
            r.atr_period = snap.atr_period
            ∧ r.atr_multiplier = snap.atr_multiplier) := by
  refine ⟨fun s b => rfl, ?_, ?_⟩
  · intro s i s' h
    unfold scanReadSettings at h
    split at h
    next heq =>
      cases h
      refine ⟨?_, rfl⟩
      have hi : i < s.threads.length := by
        obtain ⟨hlt, -⟩ := List.getElem?_eq_some_iff.mp heq
        exact hlt
      exact List.getElem?_set_eq_of_lt _ hi
    next => exact Option.noConfusion h
  · intro s i e t s' snap h hsnap
    obtain ⟨snap2, heq, hres⟩ := scanPublish_results h
    rw [heq] at hsnap
    have hsnap2 : snap2 = snap := by
      simpa using hsnap
    subst hsnap2
    refine ⟨hres, ?_⟩
    intro r hr
    rw [hres] at hr
    have hr2 : r ∈ scan_symbols e.fetch snap2.min_atr_percentage
        snap2.atr_period snap2.atr_multiplier snap2.interval e.symbols :=
      (sortDesc_perm _).mem_iff.mp hr
    exact scan_symbols_param_mem hr2

/-- A state with one run between the flag assignment and the settings
read. -/
def oneFlagged : Sys := ⟨⟨[], none, true, defaultSettings⟩, [.flagged]⟩

/-- Witness for C10 at concrete states. -/
theorem settings_snapshot_semantics_witness :
    ((update_settings_store twoRunning bodyBad).1).threads = twoRunning.threads
    ∧ (((scanReadSettings oneFlagged 0).getD initSys).threads[0]?
          = some (.running oneFlagged.store.scan_settings)
        ∧ ((scanReadSettings oneFlagged 0).getD initSys).store = oneFlagged.store)
    ∧ (((scanPublish twoRunning 0 e0 3).getD initSys).store.results
          = sortDesc (scan_symbols e0.fetch defaultSettings.min_atr_percentage
              defaultSettings.atr_period defaultSettings.atr_multiplier
              defaultSettings.interval e0.symbols)
        ∧ ∀ r ∈ ((scanPublish twoRunning 0 e0 3).getD initSys).store.results,
            r.atr_period = defaultSettings.atr_period
            ∧ r.atr_multiplier = defaultSettings.atr_multiplier) :=
  ⟨settings_snapshot_semantics.1 twoRunning bodyBad,
   settings_snapshot_semantics.2.1 oneFlagged 0 _ rfl,
   settings_snapshot_semantics.2.2 twoRunning 0 e0 3 _ defaultSettings rfl rfl⟩
